import Mathlib

/-!
Verification development for the OmpSs-2 compiler support subsystems:
data-sharing attribute (DSA) inference (clang Sema), dependency-kind
validation, dependency region-descriptor emission (clang CodeGen), the
region analysis scan and task lowering (LLVM passes).

Each definition is a shallow embedding of the corresponding C++ function,
translated directly from the source files:
  clang/lib/Sema/SemaOmpSs.cpp
  clang/lib/CodeGen/CGOmpSsRuntime.cpp
  llvm/lib/Analysis/OmpSsRegionAnalysis.cpp
  llvm/lib/Transforms/OmpSs/OmpSsTransform.cpp

Modelling conventions: C++ pointers that may be null become `Option`;
`llvm_unreachable` and failed assertions become `Option.none` results;
clang `Expr *` occurrences are identified by numeric ids; diagnostics are
recorded in a list instead of being printed.
-/

namespace OmpSs

/-- Clause kinds used by the DSA machinery (from clang OmpSsKinds;
only the kinds the DSA code manipulates are modelled). -/
inductive OmpSsClauseKind where
  | OSSC_unknown
  | OSSC_shared
  | OSSC_private
  | OSSC_firstprivate
  | OSSC_depend
  | OSSC_reduction
  deriving DecidableEq, Repr

open OmpSsClauseKind

/-- Directive kinds (from clang OmpSsKinds). -/
inductive OmpSsDirectiveKind where
  | OSSD_unknown
  | OSSD_task
  | OSSD_taskwait
  deriving DecidableEq, Repr

open OmpSsDirectiveKind

/-- Mirrors clang isOmpSsTaskingDirective: of the directives with an
associated statement only the task directive is a tasking directive. -/
def isOmpSsTaskingDirective (d : OmpSsDirectiveKind) : Bool :=
  d = OSSD_task

/-- Default data sharing attributes (SemaOmpSs.cpp, DefaultDataSharingAttributes). -/
inductive DefaultDataSharingAttributes where
  | DSA_unspecified
  | DSA_none
  | DSA_shared
  deriving DecidableEq, Repr

open DefaultDataSharingAttributes

/-- One entry of a scope's SharingMap (DSAStackTy::DSAInfo).
`RefExpr` holds the id of the triggering expression; `none` models the
null pointer. -/
structure DSAInfo where
  Attributes : OmpSsClauseKind := OSSC_unknown
  RefExpr : Option Nat := none
  Ignore : Bool := false
  Implicit : Bool := false
  CRestrict : OmpSsClauseKind := OSSC_unknown
  deriving DecidableEq, Repr

/-- Result of a stack query (DSAStackTy::DSAVarData). -/
structure DSAVarData where
  DKind : OmpSsDirectiveKind := OSSD_unknown
  CKind : OmpSsClauseKind := OSSC_unknown
  RefExpr : Option Nat := none
  Ignore : Bool := false
  Implicit : Bool := false
  CRestrict : OmpSsClauseKind := OSSC_unknown
  deriving DecidableEq, Repr

/-- One scope of the DSA stack (DSAStackTy::SharingMapTy).  The sharing
map is an association list keyed by the canonical variable id; keys are
unique because updates overwrite in place (DenseMap semantics). -/
structure SharingMapTy where
  SharingMap : List (Nat × DSAInfo) := []
  DefaultAttr : DefaultDataSharingAttributes := DSA_unspecified
  Directive : OmpSsDirectiveKind := OSSD_unknown
  ThisExpr : Option Nat := none
  deriving DecidableEq, Repr

/-- The DSA stack.  The head of the list is the innermost scope
(C++ stores the innermost at the back and iterates with rbegin). -/
abbrev DSAStack := List SharingMapTy

/-- Association-list lookup with DenseMap count/lookup semantics. -/
def mapFind (m : List (Nat × DSAInfo)) (k : Nat) : Option DSAInfo :=
  match m with
  | [] => none
  | (k2, v) :: rest => if k2 = k then some v else mapFind rest k

/-- Association-list overwrite-or-insert, modelling DenseMap operator[]
followed by field assignments (DSAStackTy::addDSA body). -/
def mapUpdate (m : List (Nat × DSAInfo)) (k : Nat) (v : DSAInfo) :
    List (Nat × DSAInfo) :=
  match m with
  | [] => [(k, v)]
  | (k2, v2) :: rest =>
      if k2 = k then (k2, v) :: rest else (k2, v2) :: mapUpdate rest k v

namespace DSAStackTy

/-- DSAStackTy::getDSA: read one scope's entry for a declaration. -/
def getDSA (s : SharingMapTy) (d : Nat) : DSAVarData :=
  match mapFind s.SharingMap d with
  | some data =>
      { DKind := s.Directive, CKind := data.Attributes,
        RefExpr := data.RefExpr, Ignore := data.Ignore,
        Implicit := data.Implicit, CRestrict := data.CRestrict }
  | none => { DKind := s.Directive }

/-- DSAStackTy::hasDSA: outward search, optionally skipping the
innermost scope; a scope whose directive fails `dpred` is skipped, and
the first scope whose (possibly absent) entry satisfies `cpred` is
returned. -/
def hasDSA (stack : DSAStack) (d : Nat)
    (cpred : OmpSsClauseKind → Bool) (dpred : OmpSsDirectiveKind → Bool)
    (fromParent : Bool) : DSAVarData :=
  go (if fromParent then stack.tail else stack)
where
  go : List SharingMapTy → DSAVarData
    | [] => {}
    | s :: rest =>
        if dpred s.Directive then
          let dv := getDSA s d
          if cpred dv.CKind then dv else go rest
        else go rest

/-- DSAStackTy::getTopDSA: nearest explicit non-shared attribute in a
task directive scope; only usable if it has a kind and a reference
expression.  All modelled declarations are VarDecls. -/
def getTopDSA (stack : DSAStack) (d : Nat) (fromParent : Bool) : DSAVarData :=
  let dvarTemp :=
    hasDSA stack d (fun c => c ≠ OSSC_shared) (fun dir => dir = OSSD_task)
      fromParent
  if dvarTemp.CKind ≠ OSSC_unknown ∧ dvarTemp.RefExpr.isSome then dvarTemp
  else {}

/-- DSAStackTy::getCurrentDSA: entry of the innermost scope only, and
only when that scope is a task directive. -/
def getCurrentDSA (stack : DSAStack) (d : Nat) : DSAVarData :=
  match stack with
  | [] => {}
  | s :: _ => if s.Directive = OSSD_task then getDSA s d else {}

/-- DSAStackTy::addDSA: record an attribute for a declaration in the
innermost scope. -/
def addDSA (stack : DSAStack) (d : Nat) (e : Option Nat)
    (a : OmpSsClauseKind) (ignore implicit : Bool)
    (crestrict : OmpSsClauseKind := OSSC_unknown) : DSAStack :=
  match stack with
  | [] => []
  | s :: rest =>
      let data : DSAInfo :=
        { Attributes := a, RefExpr := e, Ignore := ignore,
          Implicit := implicit, CRestrict := crestrict }
      { s with SharingMap := mapUpdate s.SharingMap d data } :: rest

/-- DSAStackTy::getCurrentDirective. -/
def getCurrentDirective (stack : DSAStack) : OmpSsDirectiveKind :=
  match stack with
  | [] => OSSD_unknown
  | s :: _ => s.Directive

/-- DSAStackTy::getCurrentDefaultDataSharingAttributtes. -/
def getCurrentDefaultDataSharingAttributtes (stack : DSAStack) :
    DefaultDataSharingAttributes :=
  match stack with
  | [] => DSA_unspecified
  | s :: _ => s.DefaultAttr

end DSAStackTy

/-- One variable reference inside a task body (a DeclRefExpr over a
VarDecl).  `Var` is the canonical declaration id, `Id` identifies the
particular expression occurrence, `LocalStorage` models
VarDecl::hasLocalStorage. -/
structure VarRef where
  Var : Nat
  Id : Nat
  LocalStorage : Bool
  deriving DecidableEq, Repr

/-- State threaded through DSAAttrChecker. -/
structure DSAAttrCheckerState where
  stack : DSAStack
  ImplicitShared : List VarRef := []
  ImplicitFirstprivate : List VarRef := []
  InnerDecls : List Nat := []
  ErrorFound : Bool := false
  Diags : List Nat := []
  deriving Repr

namespace DSAAttrChecker

open DSAStackTy

/-- DSAAttrChecker::VisitDeclRefExpr, the whole-body implicit-DSA
classification of one variable reference.  `none` models reaching
llvm_unreachable.  Dependence early-exits are not modelled (all
modelled references are non-dependent). -/
def VisitDeclRefExpr (st : DSAAttrCheckerState) (e : VarRef) :
    Option DSAAttrCheckerState :=
  if e.Var ∈ st.InnerDecls then some st
  else
    let dvarCurrent := getCurrentDSA st.stack e.Var
    let dvarFromParent := getTopDSA st.stack e.Var true
    let existsParent := dvarFromParent.RefExpr.isSome
    let parentIgnore := dvarFromParent.Ignore
    let existsCurrent := dvarCurrent.RefExpr.isSome
    if existsCurrent then some st
    else if existsParent ∧ ¬parentIgnore then
      match dvarFromParent.CKind with
      | OSSC_shared =>
          some { st with ImplicitShared := st.ImplicitShared ++ [e] }
      | OSSC_private =>
          some { st with
                 ImplicitFirstprivate := st.ImplicitFirstprivate ++ [e] }
      | OSSC_firstprivate =>
          some { st with
                 ImplicitFirstprivate := st.ImplicitFirstprivate ++ [e] }
      | _ => none
    else
      let dkind := getCurrentDirective st.stack
      match getCurrentDefaultDataSharingAttributtes st.stack with
      | DSA_shared =>
          let st :=
            if isOmpSsTaskingDirective dkind then
              { st with ImplicitShared := st.ImplicitShared ++ [e] }
            else st
          some { st with
                 stack := addDSA st.stack e.Var (some e.Id) OSSC_shared
                            true true }
      | DSA_none =>
          if ¬dvarCurrent.Ignore then
            some { st with
                   Diags := st.Diags ++ [e.Var],
                   stack := addDSA st.stack e.Var (some e.Id) OSSC_unknown
                              true true }
          else some st
      | DSA_unspecified =>
          if e.LocalStorage then
            let st :=
              if isOmpSsTaskingDirective dkind then
                { st with
                  ImplicitFirstprivate := st.ImplicitFirstprivate ++ [e] }
              else st
            some { st with
                   stack := addDSA st.stack e.Var (some e.Id)
                              OSSC_firstprivate true true }
          else
            let st :=
              if isOmpSsTaskingDirective dkind then
                { st with ImplicitShared := st.ImplicitShared ++ [e] }
              else st
            some { st with
                   stack := addDSA st.stack e.Var (some e.Id) OSSC_shared
                              true true }

end DSAAttrChecker

/-- One DeclRefExpr occurrence inside a dependency/reduction clause
expression.  `SubscriptCnt` models a nonzero ArraySubscriptCnt (the
reference sits inside a subscript/section/shape index), `PointerTy`
models VD->getType()->isPointerType(), `DerefMemberArrayBase` models the
IsDerefMemberArrayBase flag set by the enclosing expression visitors. -/
structure ClauseVarRef where
  Var : Nat
  Id : Nat
  SubscriptCnt : Bool := false
  PointerTy : Bool := false
  DerefMemberArrayBase : Bool := false
  deriving DecidableEq, Repr

/-- State threaded through OSSClauseDSAChecker. -/
structure OSSClauseDSACheckerState where
  stack : DSAStack
  ImplicitShared : List ClauseVarRef := []
  ImplicitFirstprivate : List ClauseVarRef := []
  ErrorFound : Bool := false
  ConflictDiags : List Nat := []
  MismatchDiags : List Nat := []
  deriving Repr

namespace OSSClauseDSAChecker

open DSAStackTy

/-- Erase the first element of the implicit-firstprivate list whose
expression id matches the recorded RefExpr (the `while (It != end())`
search followed by `erase`); `none` models the failed assertion when the
expression is not found. -/
def eraseFirstById (l : List ClauseVarRef) (rid : Option Nat) :
    Option (List ClauseVarRef) :=
  match l with
  | [] => none
  | x :: rest =>
      if (some x.Id) = rid then some rest
      else (eraseFirstById rest rid).map (fun r => x :: r)

/-- OSSClauseDSAChecker::VisitDeclRefExpr, classifying the base symbols
and index symbols of one dependency/reduction clause expression.
`curClause` is the clause kind returned by CurClause->getClauseKind().
`none` models llvm_unreachable or a failed assertion. -/
def VisitDeclRefExpr (st : OSSClauseDSACheckerState) (curClause : OmpSsClauseKind)
    (e : ClauseVarRef) : Option OSSClauseDSACheckerState :=
  let vkind :=
    if e.SubscriptCnt then OSSC_firstprivate
    else if e.PointerTy ∧ e.DerefMemberArrayBase then OSSC_firstprivate
    else OSSC_shared
  let dvarCurrent := getCurrentDSA st.stack e.Var
  let conflict :=
    dvarCurrent.CRestrict = OSSC_reduction ∨
      (dvarCurrent.CRestrict = OSSC_depend ∧ curClause = OSSC_reduction)
  let crestrict := if conflict then OSSC_reduction else curClause
  let st :=
    if conflict then
      { st with ErrorFound := true,
                ConflictDiags := st.ConflictDiags ++ [e.Var] }
    else st
  match dvarCurrent.CKind with
  | OSSC_shared => some st
  | OSSC_private => some st
  | OSSC_firstprivate =>
      if vkind = OSSC_shared then
        if dvarCurrent.Implicit then
          match eraseFirstById st.ImplicitFirstprivate dvarCurrent.RefExpr with
          | some fp =>
              some { st with
                     ImplicitFirstprivate := fp,
                     ImplicitShared := st.ImplicitShared ++ [e],
                     stack := addDSA st.stack e.Var (some e.Id) vkind
                                false true crestrict }
          | none => none
        else
          some { st with ErrorFound := true,
                         MismatchDiags := st.MismatchDiags ++ [e.Var] }
      else some st
  | OSSC_unknown =>
      let st :=
        if vkind = OSSC_shared then
          { st with ImplicitShared := st.ImplicitShared ++ [e] }
        else st
      let st :=
        if vkind = OSSC_firstprivate then
          { st with ImplicitFirstprivate := st.ImplicitFirstprivate ++ [e] }
        else st
      some { st with
             stack := addDSA st.stack e.Var (some e.Id) vkind
                        false true crestrict }
  | _ => none

/-- One dependency or reduction clause as seen by the checker: its
clause kind and the DeclRefExpr occurrences its expression walk visits,
in visit order. -/
structure OSSClause where
  Kind : OmpSsClauseKind
  Occs : List ClauseVarRef
  deriving Repr

/-- OSSClauseDSAChecker::VisitClause: visit every occurrence of one
clause with CurClause set to that clause. -/
def VisitClause (st : OSSClauseDSACheckerState) (c : OSSClause) :
    Option OSSClauseDSACheckerState :=
  c.Occs.foldlM (fun s e => VisitDeclRefExpr s c.Kind e) st

/-- The clause loop of Sema::ActOnOmpSsAfterClauseGathering: one checker
instance visits every depend and reduction clause in order. -/
def runClauses (st : OSSClauseDSACheckerState) (cs : List OSSClause) :
    Option OSSClauseDSACheckerState :=
  cs.foldlM (fun s c =>
    if c.Kind = OSSC_depend ∨ c.Kind = OSSC_reduction then VisitClause s c
    else some s) st

end OSSClauseDSAChecker

/-- Dependency kinds accepted in a depend clause modifier list
(clang OmpSsDependClauseKind). -/
inductive OmpSsDependClauseKind where
  | OSSC_DEPEND_in
  | OSSC_DEPEND_out
  | OSSC_DEPEND_inout
  | OSSC_DEPEND_mutexinoutset
  | OSSC_DEPEND_inoutset
  | OSSC_DEPEND_weak
  | OSSC_DEPEND_unknown
  deriving DecidableEq, Repr, Fintype

namespace Sema

open OmpSsDependClauseKind

/-- Sema::ActOnOmpSsDependKinds: validate the modifier list of a depend
clause and produce the normalized order (base kind first, weak second).
`none` models emitting a diagnostic and returning false; `some l`
models returning true with DepKindsOrdered = l.  The C++ reads only
DepKinds[0] when the size differs from two; the empty list (never
produced by the parser) is modelled as a rejection. -/
def ActOnOmpSsDependKinds (DepKinds : List OmpSsDependClauseKind) :
    Option (List OmpSsDependClauseKind) :=
  match DepKinds with
  | [k0, k1] =>
      let numNoWeakCompats : Nat :=
        if k0 = OSSC_DEPEND_inoutset ∨ k1 = OSSC_DEPEND_inoutset then 1 else 0
      let w0 : Nat := if k0 = OSSC_DEPEND_weak then 1 else 0
      let u0 : Nat :=
        if k0 ≠ OSSC_DEPEND_weak ∧ k0 = OSSC_DEPEND_unknown then 1 else 0
      let w1 : Nat := if k1 = OSSC_DEPEND_weak then 1 else 0
      let u1 : Nat :=
        if k1 ≠ OSSC_DEPEND_weak ∧ k1 = OSSC_DEPEND_unknown then 1 else 0
      let numWeaks := w0 + w1
      let numUnk := u0 + u1
      if numNoWeakCompats ≠ 0 then none
      else if numWeaks = 0 then
        if numUnk = 0 ∨ numUnk = 1 then none
        else if numUnk = 2 then none
        else
          if k0 = OSSC_DEPEND_weak then some [k1, k0] else some [k0, k1]
      else if (numWeaks = 1 ∧ numUnk = 1) ∨ (numWeaks = 2 ∧ numUnk = 0) then
        none
      else
        if k0 = OSSC_DEPEND_weak then some [k1, k0] else some [k0, k1]
  | [] => none
  | k0 :: _ =>
      if k0 = OSSC_DEPEND_unknown ∨ k0 = OSSC_DEPEND_weak then none
      else some [k0]

end Sema

/-! Dependency region-descriptor emission (CGOmpSsRuntime.cpp).
Types are modelled by their shape: scalars carry their byte size as
computed by the LLVM data layout; only constant-size arrays appear in
the claims, so variable-length arrays are not modelled.  llvm::Value
computations are modelled by their integer values. -/

/-- Shape of a C type as the dependency visitor needs it. -/
inductive CType where
  | scalar (size : Nat)
  | pointerTo (t : CType)
  | arrayOf (n : Nat) (t : CType)
  deriving DecidableEq, Repr

namespace CType

def isPointerType : CType → Bool
  | pointerTo _ => true
  | _ => false

def isArrayType : CType → Bool
  | arrayOf _ _ => true
  | _ => false

/-- ASTContext::getBaseElementType / GetInnermostElementType: strip all
array layers. -/
def getInnermostElementType : CType → CType
  | arrayOf _ t => getInnermostElementType t
  | t => t

/-- DataLayout::getTypeSizeInBits(...)/8 for the converted type. -/
def byteSize : CType → Nat
  | scalar s => s
  | pointerTo _ => 8
  | arrayOf n t => n * byteSize t

/-- The constant-array dimension sizes, outermost first (the
`while (TmpTy->isArrayType())` push loops). -/
def arrayDims : CType → List Int
  | arrayOf n t => (Int.ofNat n) :: arrayDims t
  | _ => []

end CType

/-- Dependency expressions as the visitor sees them.  `arraySection`
carries the optional lower bound, the optional length/upper bound, the
colon-versus-semicolon form flag and whether a colon/semicolon token was
present at all (OSSArraySectionExpr::getColonLoc().isInvalid() when
absent).  Bound expressions are modelled by their integer values. -/
inductive DepExpr where
  | declRef (ty : CType)
  | arraySubscript (base : DepExpr) (idx : Int)
  | arraySection (base : DepExpr) (lowerBound : Option Int)
      (lengthUpper : Option Int) (colonForm : Bool) (hasColon : Bool)
  deriving DecidableEq, Repr

namespace DepExpr

/-- OSSArraySectionExpr::getBaseOriginalType, modelled from its header
contract (its body lives in clang AST files outside this repository):
the original type of the base, obtained from the innermost declaration
type by applying one array/pointer step per enclosing subscript or
section. -/
def getBaseOriginalType : DepExpr → CType
  | declRef ty => ty
  | arraySubscript b _ => step (getBaseOriginalType b)
  | arraySection b _ _ _ _ => step (getBaseOriginalType b)
where
  step : CType → CType
    | CType.arrayOf _ t => t
    | CType.pointerTo t => t
    | t => t

/-- Type of the expression after IgnoreParenImpCasts, as the pointer
checks of the visitor observe it.  A DeclRefExpr keeps its declared
type (array-to-pointer decay is stripped); a subscript has the stepped
type; a section is given its original (array-shaped) type, which is
never a pointer for the sections built by Sema. -/
def exprType : DepExpr → CType
  | declRef ty => ty
  | arraySubscript b _ => getBaseOriginalType (arraySubscript b 0)
  | arraySection b lo lu cf hc => getBaseOriginalType (arraySection b lo lu cf hc)

end DepExpr

/-- Result of OSSDependVisitor: collected Starts/Ends/Dims values and
the base element type.  The base pointer lvalue is not part of the
numeric descriptor and is not modelled. -/
structure DepVisitResult where
  Starts : List Int := []
  Ends : List Int := []
  Dims : List Int := []
  BaseElementTy : CType := CType.scalar 0
  deriving DecidableEq, Repr

namespace OSSDependVisitor

open CType DepExpr

/-- OSSDependVisitor::FillBaseExprDimsAndType dimension part. -/
def fillBaseExprDims (ty : CType) : List Int :=
  (if ty.isPointerType ∨ ¬ty.isArrayType then [(1 : Int)] else []) ++
    (if ty.isPointerType then [] else ty.arrayDims)

/-- OSSDependVisitor::FillDimsFromInnermostExpr on the innermost base
expression: a pointer contributes one synthetic dimension only when no
section/subscript dimension was added before, then its pointee's array
dimensions are appended. -/
def fillDimsFromInnermostExpr (e : DepExpr) (dims : List Int) : List Int :=
  let ty := e.exprType
  if ty.isPointerType then
    let dims := if dims = [] then [(1 : Int)] else dims
    match ty with
    | CType.pointerTo t => dims ++ t.arrayDims
    | _ => dims
  else dims ++ ty.arrayDims

/-- The section while-loop of VisitOSSArraySectionExpr: peel sections
from the outside in, computing one (start, end) pair per section, and
stop early with one extra dimension when the next base is pointer
typed.  Returns the remaining innermost expression together with the
accumulated Starts, Ends and Dims. -/
def sectionLoop (ossSyntax : Bool) :
    DepExpr → List Int → List Int → List Int →
    Option (DepExpr × List Int × List Int × List Int)
  | DepExpr.arraySection b lo lu cf hc, starts, ends, dims => do
      let idx : Int := lo.getD 0
      let idxEnd : Option Int :=
        match lu with
        | some v =>
            if ¬ossSyntax ∨ (ossSyntax ∧ ¬cf) then some (idx + v)
            else if ossSyntax ∧ cf then some (1 + v)
            else none
        | none =>
            if ¬hc then some (idx + 1)
            else
              match getBaseOriginalType b with
              | CType.arrayOf n _ => some (Int.ofNat n)
              | _ => none
      let idxEnd ← idxEnd
      let starts := starts ++ [idx]
      let ends := ends ++ [idxEnd]
      if (exprType b).isPointerType then
        match lu with
        | some v => some (b, starts, ends, dims ++ [v])
        | none => none
      else sectionLoop ossSyntax b starts ends dims
  | e, starts, ends, dims => some (e, starts, ends, dims)

/-- The subscript while-loop shared by VisitOSSArraySectionExpr and
VisitArraySubscriptExpr. -/
def subscriptLoop :
    DepExpr → List Int → List Int → List Int →
    (DepExpr × List Int × List Int × List Int)
  | DepExpr.arraySubscript b i, starts, ends, dims =>
      let starts := starts ++ [i]
      let ends := ends ++ [i + 1]
      if (exprType b).isPointerType then (b, starts, ends, dims ++ [(1 : Int)])
      else subscriptLoop b starts ends dims
  | e, starts, ends, dims => (e, starts, ends, dims)

/-- OSSDependVisitor::Visit dispatch over the modelled expression
forms.  `none` models llvm_unreachable (for example a section over a
non-array, non-pointer base). -/
def visit (ossSyntax : Bool) : DepExpr → Option DepVisitResult
  | DepExpr.declRef ty =>
      some { Dims := fillBaseExprDims ty,
             BaseElementTy := ty.getInnermostElementType }
  | DepExpr.arraySubscript b i =>
      let e := DepExpr.arraySubscript b i
      let baseElem := (exprType e).getInnermostElementType
      let r := subscriptLoop e [] [] []
      some { Starts := r.2.1, Ends := r.2.2.1,
             Dims := fillDimsFromInnermostExpr r.1 r.2.2.2,
             BaseElementTy := baseElem }
  | DepExpr.arraySection b lo lu cf hc => do
      let e := DepExpr.arraySection b lo lu cf hc
      let baseElem ←
        match getBaseOriginalType b with
        | CType.pointerTo t => some t.getInnermostElementType
        | CType.arrayOf n t => some ((CType.arrayOf n t).getInnermostElementType)
        | _ => none
      let r ← sectionLoop ossSyntax e [] [] []
      let r2 := subscriptLoop r.1 r.2.1 r.2.2.1 r.2.2.2
      some { Starts := r2.2.1, Ends := r2.2.2.1,
             Dims := fillDimsFromInnermostExpr r2.1 r2.2.2.2,
             BaseElementTy := baseElem }

end OSSDependVisitor

namespace EmitDep

/-- One iteration of the dimension loop in EmitDependency: the triple
for dimension index `i`, using the default full-range bounds when fewer
indices than dimensions were written. -/
def tripleAt (dims starts ends : List Int) (i : Nat) :
    Option (Int × Int × Int) := do
  let dim ← dims.get? i
  if i < starts.length then do
    let s ← starts.get? (starts.length - i - 1)
    let e ← ends.get? (starts.length - i - 1)
    pure (dim, s, e)
  else pure (dim, 0, dim)

/-- The triples in emission order: dimension indices from
Dims.size()-1 down to 0 (the trailing index-0 block of EmitDependency
computes the same triple as the loop body would). -/
def depDataRaw (dims starts ends : List Int) :
    Option (List (Int × Int × Int)) :=
  ((List.range dims.length).reverse).mapM (tripleAt dims starts ends)

/-- The `First` merge of EmitDependency: the first emitted dimension is
multiplied component-wise by the base element byte size. -/
def mergeElemSize (l : List (Int × Int × Int)) (sz : Int) :
    List (Int × Int × Int) :=
  match l with
  | [] => []
  | (d, s, e) :: rest => (d * sz, s * sz, e * sz) :: rest

/-- EmitDependency (CGOmpSsRuntime.cpp): run the visitor and produce
the (size, start, end) dimension triples of the region descriptor, in
the order they are pushed into the DepData operand list. -/
def EmitDependency (ossSyntax : Bool) (e : DepExpr) :
    Option (List (Int × Int × Int)) := do
  let r ← OSSDependVisitor.visit ossSyntax e
  let raw ← depDataRaw r.Dims r.Starts r.Ends
  pure (mergeElemSize raw (Int.ofNat r.BaseElementTy.byteSize))

end EmitDep

end OmpSs


namespace OmpSs

/-! Region analysis (OmpSsRegionAnalysis.cpp).  The scan walks the
instruction stream of a function in reverse post order; straight-line
code is modelled as a single list of instructions indexed by position,
so `dominates` becomes position comparison.  Values are instruction
results (identified by their defining position) or function
arguments. -/

/-- An llvm::Value as the scan classifies it. -/
inductive LValue where
  | instr (pos : Nat)
  | argument (n : Nat)
  deriving DecidableEq, Repr

/-- TaskDSAInfo: the DSA operand-bundle contents of one entry marker. -/
structure TaskDSAInfo where
  Shared : List LValue := []
  Private : List LValue := []
  Firstprivate : List LValue := []
  deriving DecidableEq, Repr

/-- valueInDSABundles (OmpSsRegionAnalysis.cpp). -/
def valueInDSABundles (info : TaskDSAInfo) (v : LValue) : Bool :=
  ¬(v ∉ info.Shared ∧ v ∉ info.Private ∧ v ∉ info.Firstprivate)

/-- One operand of a plain instruction: a use of a value, or an operand
that is neither an instruction nor an argument (constants etc.). -/
inductive ScanOperand where
  | use (v : LValue)
  | other
  deriving DecidableEq, Repr

/-- Instructions as the scan distinguishes them.  An entry marker
carries its DSA bundles and the position of its unique user (the
matching exit, known through user_back); a plain instruction carries
its operands and the positions of its users. -/
inductive ScanInst where
  | entry (dsa : TaskDSAInfo) (exitPos : Nat)
  | exit
  | marker
  | plain (operands : List ScanOperand) (users : List Nat)
  deriving DecidableEq, Repr

/-- In-flight task state of the scan (the local `struct Task`). -/
structure ScanTask where
  EntryPos : Nat
  ExitPos : Nat
  DSAInfo : TaskDSAInfo
  UsesBeforeEntry : List LValue := []
  UsesAfterExit : List LValue := []
  deriving DecidableEq, Repr

/-- Accumulated scan state: the task stack (innermost at the head) and
the post-order list of completed tasks and taskwait markers. -/
structure ScanState where
  Stack : List ScanTask := []
  PostOrder : List ScanTask := []
  Taskwaits : List Nat := []
  deriving DecidableEq, Repr

namespace OmpSsRegionAnalysisPass

/-- The operand loop run for a plain instruction while inside a task:
an operand that is an instruction dominating the entry, or an argument,
is a use-before-entry and must be listed in the task's DSA bundles
unless checks are disabled.  `none` models llvm_unreachable. -/
def scanOperands (disableChecks : Bool) (t : ScanTask) :
    List ScanOperand → Option ScanTask
  | [] => some t
  | ScanOperand.use (LValue.instr p) :: rest =>
      if p < t.EntryPos then
        let t := { t with
                   UsesBeforeEntry := t.UsesBeforeEntry ++ [LValue.instr p] }
        if ¬disableChecks ∧ ¬valueInDSABundles t.DSAInfo (LValue.instr p) then
          none
        else scanOperands disableChecks t rest
      else scanOperands disableChecks t rest
  | ScanOperand.use (LValue.argument a) :: rest =>
      let t := { t with
                 UsesBeforeEntry := t.UsesBeforeEntry ++ [LValue.argument a] }
      if ¬disableChecks ∧ ¬valueInDSABundles t.DSAInfo (LValue.argument a) then
        none
      else scanOperands disableChecks t rest
  | ScanOperand.other :: rest => scanOperands disableChecks t rest

/-- The user loop run for a plain instruction while inside a task: a
user dominated by the task exit is a use-after-exit, fatal unless
checks are disabled. -/
def scanUsers (disableChecks : Bool) (selfPos : Nat) (t : ScanTask) :
    List Nat → Option ScanTask
  | [] => some t
  | u :: rest =>
      if t.ExitPos < u then
        let t := { t with
                   UsesAfterExit := t.UsesAfterExit ++ [LValue.instr selfPos] }
        if ¬disableChecks then none
        else scanUsers disableChecks selfPos t rest
      else scanUsers disableChecks selfPos t rest

/-- One step of the instruction loop of
OmpSsRegionAnalysisPass::getOmpSsFunctionInfo. -/
def scanStep (disableChecks : Bool) (st : ScanState) (pos : Nat)
    (i : ScanInst) : Option ScanState :=
  match i with
  | ScanInst.entry dsa exitPos =>
      some { st with
             Stack := { EntryPos := pos, ExitPos := exitPos,
                        DSAInfo := dsa } :: st.Stack }
  | ScanInst.exit =>
      match st.Stack with
      | [] => none
      | t :: rest =>
          some { st with Stack := rest, PostOrder := st.PostOrder ++ [t] }
  | ScanInst.marker =>
      some { st with Taskwaits := st.Taskwaits ++ [pos] }
  | ScanInst.plain operands users =>
      match st.Stack with
      | [] => some st
      | t :: rest => do
          let t ← scanOperands disableChecks t operands
          let t ← scanUsers disableChecks pos t users
          some { st with Stack := t :: rest }

/-- The full scan of OmpSsRegionAnalysisPass::getOmpSsFunctionInfo over
an instruction stream, the instruction at list index `i` having
position `i`. -/
def getOmpSsFunctionInfo (disableChecks : Bool) (insts : List ScanInst) :
    Option ScanState :=
  (insts.enum.foldlM (fun st p => scanStep disableChecks st p.1 p.2)
    ({} : ScanState))

end OmpSsRegionAnalysisPass

/-! Task lowering (OmpSsTransform.cpp): argument-block struct layout
and the task-creation flags argument. -/

/-- An llvm::Type as createTaskArgsType needs it. -/
inductive LLVMType where
  | intTy (bits : Nat)
  | ptr (t : LLVMType)
  | arr (n : Nat) (t : LLVMType)
  deriving DecidableEq, Repr

/-- Type::getPointerElementType; only called on pointer types. -/
def LLVMType.getPointerElementType : LLVMType → LLVMType
  | LLVMType.ptr t => t
  | t => t

/-- An llvm::Value with its type (the DSA values of a task are pointers
to the storage of the variables). -/
structure TValue where
  Id : Nat
  Ty : LLVMType
  deriving DecidableEq, Repr

/-- The DSA partition of one lowered task (TaskDSAInfo in
OmpSsRegionAnalysis.h, as the transform consumes it). -/
structure TaskDSA where
  Shared : List TValue := []
  Private : List TValue := []
  Firstprivate : List TValue := []
  deriving DecidableEq, Repr

namespace OmpSsTransform

/-- MapVector-style overwrite-or-append update for the
symbol-to-struct-index map. -/
def idxMapUpdate (m : List (TValue × Nat)) (k : TValue) (i : Nat) :
    List (TValue × Nat) :=
  match m with
  | [] => [(k, i)]
  | (k2, v2) :: rest =>
      if k2 = k then (k2, i) :: rest else (k2, v2) :: idxMapUpdate rest k i

/-- Lookup in the symbol-to-struct-index map. -/
def idxMapFind (m : List (TValue × Nat)) (k : TValue) : Option Nat :=
  match m with
  | [] => none
  | (k2, v) :: rest => if k2 = k then some v else idxMapFind rest k

/-- One phase of createTaskArgsType: push one member type per value and
assign it the next consecutive struct index. -/
def argsPhase (memberTy : TValue → LLVMType) :
    List TValue → List LLVMType × List (TValue × Nat) × Nat →
    List LLVMType × List (TValue × Nat) × Nat
  | [], acc => acc
  | v :: rest, (tys, m, idx) =>
      argsPhase memberTy rest (tys ++ [memberTy v], idxMapUpdate m v idx, idx + 1)

/-- OmpSs::createTaskArgsType: the argument-block struct member types
(in order) and the symbol-to-index map.  Shared symbols are stored as
their pointer type; private and firstprivate symbols as their pointee
storage unless they are variable-length arrays, which keep the pointer
and use captured dimensions; captured auxiliary values are stored as
themselves. -/
def createTaskArgsType (dsa : TaskDSA) (capturedInfo : List TValue)
    (vlaDims : List TValue) : List LLVMType × List (TValue × Nat) :=
  let acc : List LLVMType × List (TValue × Nat) × Nat := ([], [], 0)
  let acc := argsPhase (fun v => v.Ty) dsa.Shared acc
  let acc := argsPhase
    (fun v => if v ∈ vlaDims then v.Ty else v.Ty.getPointerElementType)
    dsa.Private acc
  let acc := argsPhase
    (fun v => if v ∈ vlaDims then v.Ty else v.Ty.getPointerElementType)
    dsa.Firstprivate acc
  let acc := argsPhase (fun v => v.Ty) capturedInfo acc
  (acc.1, acc.2.1)

/-- The TaskFlagsVar computation of emitOmpSsCaptureAndSubmitTask,
modelled at the value level: starting from the i64 constant 0, a final
clause value is zero-extended and or-ed in, and an if clause value is
compared against false, zero-extended, shifted left by one and or-ed
in. -/
def computeTaskFlags (finalV ifV : Option Bool) : Nat :=
  let flags : Nat := 0
  let flags :=
    match finalV with
    | some b => flags ||| (if b then 1 else 0)
    | none => flags
  let flags :=
    match ifV with
    | some c => flags ||| ((if c = false then 1 else 0) <<< 1)
    | none => flags
  flags

end OmpSsTransform

end OmpSs

namespace OmpSs

/-! Concrete scenario values used when instantiating the theorems. -/

/-- An empty task scope with the unspecified default policy. -/
def taskScope : SharingMapTy := { Directive := OmpSsDirectiveKind.OSSD_task }

/-- A task scope in which variable 7 has an explicit private DSA. -/
def privParentScope : SharingMapTy :=
  { SharingMap :=
      [(7, { Attributes := OmpSsClauseKind.OSSC_private,
             RefExpr := some 100 })],
    Directive := OmpSsDirectiveKind.OSSD_task }

/-- A task scope in which variable 7 has an explicit firstprivate DSA. -/
def fpParentScope : SharingMapTy :=
  { SharingMap :=
      [(7, { Attributes := OmpSsClauseKind.OSSC_firstprivate,
             RefExpr := some 100 })],
    Directive := OmpSsDirectiveKind.OSSD_task }

/-- A task scope in which variable 5 has an explicit shared DSA. -/
def sharedCurScope : SharingMapTy :=
  { SharingMap :=
      [(5, { Attributes := OmpSsClauseKind.OSSC_shared,
             RefExpr := some 50 })],
    Directive := OmpSsDirectiveKind.OSSD_task }

end OmpSs

/-! Theorems.  Each claim of the specification is settled by one
theorem below; helper lemmas precede them. -/

namespace OmpSs

open OmpSsClauseKind OmpSsDirectiveKind DefaultDataSharingAttributes
open OmpSsDependClauseKind
open Sema EmitDep OSSDependVisitor CType DepExpr

theorem mapFind_mapUpdate_self (m : List (Nat × DSAInfo)) (k : Nat)
    (v : DSAInfo) : mapFind (mapUpdate m k v) k = some v := by
  induction m with
  | nil => simp [mapUpdate, mapFind]
  | cons h t ih =>
      obtain ⟨k2, v2⟩ := h
      by_cases hk : k2 = k <;> simp [mapUpdate, mapFind, hk, ih]

/-- Reading back the entry just written by addDSA on a task scope. -/
theorem getCurrentDSA_addDSA_self (cur : SharingMapTy) (rest : DSAStack)
    (d : Nat) (e : Option Nat) (a : OmpSsClauseKind) (ig im : Bool)
    (cr : OmpSsClauseKind) (hdir : cur.Directive = OSSD_task) :
    DSAStackTy.getCurrentDSA
        (DSAStackTy.addDSA (cur :: rest) d e a ig im cr) d =
      { DKind := cur.Directive, CKind := a, RefExpr := e, Ignore := ig,
        Implicit := im, CRestrict := cr } := by
  simp [DSAStackTy.addDSA, DSAStackTy.getCurrentDSA, hdir,
    DSAStackTy.getDSA, mapFind_mapUpdate_self]

/-- A reference whose variable already has an entry with a non-null
RefExpr in the current task scope is classified no further: the
whole-body checker returns its state unchanged. -/
theorem visitDeclRefExpr_existing (st : DSAAttrCheckerState) (e : VarRef)
    (hinner : e.Var ∉ st.InnerDecls)
    (hcur : (DSAStackTy.getCurrentDSA st.stack e.Var).RefExpr.isSome = true) :
    DSAAttrChecker.VisitDeclRefExpr st e = some st := by
  simp [DSAAttrChecker.VisitDeclRefExpr, hinner, hcur]

/-- C5: for a dependency expression naming a whole constant-size array
of `n` elements of byte size `s`, the emitted region descriptor has
exactly one (size, start, end) triple, with the dimension merged with
the element byte size: `(n*s, 0, n*s)`. -/
theorem c5_whole_array_descriptor (oss : Bool) (n s : Nat) :
    EmitDependency oss (declRef (arrayOf n (scalar s))) =
      some [((n : Int) * (s : Int), 0, (n : Int) * (s : Int))] := by
  simp [EmitDependency, visit, fillBaseExprDims, isPointerType, isArrayType,
    arrayDims, getInnermostElementType, byteSize, depDataRaw, tripleAt,
    mergeElemSize, List.range_succ, bind, Option.bind, List.mapM,
    List.mapM.loop]

/-- C6: for `int array[10][10]`, the descriptor of the full section
`array[:][:]` in a depend clause has two section dimensions with start
defaulting to 0 and end equal to each declared extent (10 and 10), and
after the element-size merge it is identical to the descriptor of
`array[0:10][0:10]`. -/
theorem c6_full_section_defaults :
    (visit false
        (arraySection
          (arraySection (declRef (arrayOf 10 (arrayOf 10 (scalar 4))))
            none none true true)
          none none true true) =
      some { Starts := [0, 0], Ends := [10, 10], Dims := [10, 10],
             BaseElementTy := scalar 4 }) ∧
    (EmitDependency false
        (arraySection
          (arraySection (declRef (arrayOf 10 (arrayOf 10 (scalar 4))))
            none none true true)
          none none true true) =
      some [(40, 0, 40), (10, 0, 10)]) ∧
    (EmitDependency false
        (arraySection
          (arraySection (declRef (arrayOf 10 (arrayOf 10 (scalar 4))))
            (some 0) (some 10) true true)
          (some 0) (some 10) true true) =
      EmitDependency false
        (arraySection
          (arraySection (declRef (arrayOf 10 (arrayOf 10 (scalar 4))))
            none none true true)
          none none true true)) := by
  refine ⟨by decide, by decide, by decide⟩

/-- C2 counterexample: the pair (mutexinoutset, weak) is accepted by
Sema::ActOnOmpSsDependKinds (it returns true and the normalized order),
whereas the claim states that pairing mutexinoutset with the weak
modifier is rejected. -/
theorem c2_counterexample :
    ActOnOmpSsDependKinds [OSSC_DEPEND_mutexinoutset, OSSC_DEPEND_weak] =
      some [OSSC_DEPEND_mutexinoutset, OSSC_DEPEND_weak] := by
  decide

/-- C2 (amended): a singleton list is accepted exactly when it is a base
kind (not weak, not unknown); a two-element list is accepted exactly
when it pairs the weak modifier with a base kind other than inoutset —
in particular mutexinoutset does combine with weak, while inoutset never
combines, two base kinds are rejected, and a repeated weak is
rejected. -/
theorem c2_depend_kind_validation :
    (∀ k, (ActOnOmpSsDependKinds [k]).isSome ↔
      (k ≠ OSSC_DEPEND_weak ∧ k ≠ OSSC_DEPEND_unknown)) ∧
    (∀ k0 k1, (ActOnOmpSsDependKinds [k0, k1]).isSome ↔
      ((k0 = OSSC_DEPEND_weak ∧ k1 ≠ OSSC_DEPEND_weak ∧
          k1 ≠ OSSC_DEPEND_unknown ∧ k1 ≠ OSSC_DEPEND_inoutset) ∨
       (k1 = OSSC_DEPEND_weak ∧ k0 ≠ OSSC_DEPEND_weak ∧
          k0 ≠ OSSC_DEPEND_unknown ∧ k0 ≠ OSSC_DEPEND_inoutset))) := by
  refine ⟨by decide, by decide⟩

/-- C9: whenever ActOnOmpSsDependKinds succeeds on a one- or
two-element modifier list, the output is a permutation of the input
with the base kind first and the weak modifier, when present,
second. -/
theorem c9_depend_kinds_normalized (ks l : List OmpSsDependClauseKind)
    (hlen : ks.length = 1 ∨ ks.length = 2)
    (h : ActOnOmpSsDependKinds ks = some l) :
    (l = ks ∨ l = ks.reverse) ∧
      ∃ b, b ≠ OSSC_DEPEND_weak ∧ (l = [b] ∨ l = [b, OSSC_DEPEND_weak]) := by
  have key1 : ∀ k : OmpSsDependClauseKind,
      ActOnOmpSsDependKinds [k] = none ∨
        (k ≠ OSSC_DEPEND_weak ∧ ActOnOmpSsDependKinds [k] = some [k]) := by
    decide
  have key2 : ∀ k0 k1 : OmpSsDependClauseKind,
      ActOnOmpSsDependKinds [k0, k1] = none ∨
        (k0 ≠ OSSC_DEPEND_weak ∧ k1 = OSSC_DEPEND_weak ∧
          ActOnOmpSsDependKinds [k0, k1] = some [k0, k1]) ∨
        (k0 = OSSC_DEPEND_weak ∧ k1 ≠ OSSC_DEPEND_weak ∧
          ActOnOmpSsDependKinds [k0, k1] = some [k1, k0]) := by
    decide
  rcases hlen with h1 | h2
  · obtain ⟨k, rfl⟩ := List.length_eq_one.mp h1
    rcases key1 k with hk | ⟨hkw, hk⟩
    · rw [hk] at h; cases h
    · rw [hk] at h
      cases h
      exact ⟨Or.inl rfl, k, hkw, Or.inl rfl⟩
  · match ks, h2 with
    | [k0, k1], _ =>
      rcases key2 k0 k1 with hk | ⟨h0, h1, hk⟩ | ⟨h0, h1, hk⟩
      · rw [hk] at h; cases h
      · rw [hk] at h
        cases h
        subst h1
        exact ⟨Or.inl rfl, k0, h0, Or.inr rfl⟩
      · rw [hk] at h
        cases h
        subst h0
        exact ⟨Or.inr rfl, k1, h1, Or.inr rfl⟩

/-- C9 witness: the normalization theorem applied to the concrete
input (weak, in), which succeeds with output (in, weak). -/
theorem c9_witness :
    (([OSSC_DEPEND_weak, OSSC_DEPEND_in] :
        List OmpSsDependClauseKind).length = 1 ∨
      ([OSSC_DEPEND_weak, OSSC_DEPEND_in] :
        List OmpSsDependClauseKind).length = 2) ∧
    ActOnOmpSsDependKinds [OSSC_DEPEND_weak, OSSC_DEPEND_in] =
      some [OSSC_DEPEND_in, OSSC_DEPEND_weak] ∧
    (([OSSC_DEPEND_in, OSSC_DEPEND_weak] =
        [OSSC_DEPEND_weak, OSSC_DEPEND_in] ∨
      [OSSC_DEPEND_in, OSSC_DEPEND_weak] =
        ([OSSC_DEPEND_weak, OSSC_DEPEND_in] :
          List OmpSsDependClauseKind).reverse) ∧
      ∃ b, b ≠ OSSC_DEPEND_weak ∧
        ([OSSC_DEPEND_in, OSSC_DEPEND_weak] = [b] ∨
         [OSSC_DEPEND_in, OSSC_DEPEND_weak] = [b, OSSC_DEPEND_weak])) :=
  ⟨by decide, by decide,
    c9_depend_kinds_normalized _ _ (by decide) (by decide)⟩

/-- C10: the task-creation flags argument encodes the final clause in
bit 0 (zero-extended) and the negated if clause in bit 1, and is the
constant 0 when neither clause is present. -/
theorem c10_task_flags :
    OmpSsTransform.computeTaskFlags none none = 0 ∧
    ∀ fo io : Option Bool,
      OmpSsTransform.computeTaskFlags fo io =
        (match fo with | some b => (if b then 1 else 0) | none => 0) |||
          ((match io with | some c => (if c = false then 1 else 0)
                          | none => 0) <<< 1) := by
  refine ⟨by decide, by decide⟩

end OmpSs

namespace OmpSs

open OmpSsClauseKind OmpSsDirectiveKind DefaultDataSharingAttributes
open DSAStackTy DSAAttrChecker

/-- C1 counterexample: a variable with local storage, an explicit
non-ignored shared DSA in the enclosing task construct and no DSA in
the nested task construct is recorded by the whole-body walk as
implicit firstprivate, not implicit shared: getTopDSA skips enclosing
shared entries, so the default-policy rules apply instead of the
claimed inheritance. -/
theorem c1_counterexample :
    (DSAAttrChecker.VisitDeclRefExpr
        { stack :=
            [{ Directive := OSSD_task },
             { SharingMap :=
                 [(7, { Attributes := OSSC_shared, RefExpr := some 100 })],
               Directive := OSSD_task }] }
        ⟨7, 42, true⟩).map
      (fun s => (s.ImplicitShared, s.ImplicitFirstprivate)) =
      some ([], [⟨7, 42, true⟩]) := by
  decide

/-- C1 (amended): when the parent lookup (getTopDSA with FromParent)
yields an explicit, non-ignored private or firstprivate attribute, the
nested construct records the reference as implicit firstprivate; an
enclosing explicit shared attribute is skipped by the lookup, so with
no other enclosing entry the default policy decides: under the
unspecified default a local-storage variable becomes implicit
firstprivate and any other variable implicit shared. -/
theorem c1_inheritance :
    (∀ (cur : SharingMapTy) (rest : DSAStack) (sh fp : List VarRef)
       (inner : List Nat) (err : Bool) (dg : List Nat) (e : VarRef),
       cur.Directive = OSSD_task →
       mapFind cur.SharingMap e.Var = none →
       e.Var ∉ inner →
       (getTopDSA (cur :: rest) e.Var true).RefExpr.isSome = true →
       (getTopDSA (cur :: rest) e.Var true).Ignore = false →
       ((getTopDSA (cur :: rest) e.Var true).CKind = OSSC_private ∨
         (getTopDSA (cur :: rest) e.Var true).CKind = OSSC_firstprivate) →
       DSAAttrChecker.VisitDeclRefExpr
           { stack := cur :: rest, ImplicitShared := sh,
             ImplicitFirstprivate := fp, InnerDecls := inner,
             ErrorFound := err, Diags := dg } e =
         some { stack := cur :: rest, ImplicitShared := sh,
                ImplicitFirstprivate := fp ++ [e], InnerDecls := inner,
                ErrorFound := err, Diags := dg }) ∧
    (∀ (x r : Nat) (sh fp : List VarRef) (e : VarRef),
       e.Var = x →
       DSAAttrChecker.VisitDeclRefExpr
           { stack :=
               [{ Directive := OSSD_task },
                { SharingMap :=
                    [(x, { Attributes := OSSC_shared, RefExpr := some r })],
                  Directive := OSSD_task }],
             ImplicitShared := sh, ImplicitFirstprivate := fp } e =
         some (if e.LocalStorage then
                 { stack :=
                     addDSA
                       [{ Directive := OSSD_task },
                        { SharingMap :=
                            [(x, { Attributes := OSSC_shared,
                                   RefExpr := some r })],
                          Directive := OSSD_task }]
                       e.Var (some e.Id) OSSC_firstprivate true true,
                   ImplicitShared := sh,
                   ImplicitFirstprivate := fp ++ [e] }
               else
                 { stack :=
                     addDSA
                       [{ Directive := OSSD_task },
                        { SharingMap :=
                            [(x, { Attributes := OSSC_shared,
                                   RefExpr := some r })],
                          Directive := OSSD_task }]
                       e.Var (some e.Id) OSSC_shared true true,
                   ImplicitShared := sh ++ [e],
                   ImplicitFirstprivate := fp })) := by
  constructor
  · intro cur rest sh fp inner err dg e hdir hcur hinner hsome hig hkind
    rcases hkind with hk | hk <;>
      simp [DSAAttrChecker.VisitDeclRefExpr, hinner, getCurrentDSA, hdir,
        getDSA, hcur, hsome, hig, hk]
  · intro x r sh fp e hv
    cases hl : e.LocalStorage <;>
      simp [DSAAttrChecker.VisitDeclRefExpr, getCurrentDSA, getDSA, mapFind,
        getTopDSA, hasDSA, hasDSA.go, hv, hl, getCurrentDirective,
        getCurrentDefaultDataSharingAttributtes, isOmpSsTaskingDirective]

end OmpSs

namespace OmpSs

open OmpSsClauseKind OmpSsDirectiveKind DefaultDataSharingAttributes
open DSAStackTy DSAAttrChecker

/-- C1 witness: the inheritance theorem applied to a nested task whose
parent holds an explicit private DSA for variable 7. -/
theorem c1_witness :
    taskScope.Directive = OSSD_task ∧
    mapFind taskScope.SharingMap 7 = none ∧
    (7 : Nat) ∉ ([] : List Nat) ∧
    (getTopDSA [taskScope, privParentScope] 7 true).RefExpr.isSome = true ∧
    (getTopDSA [taskScope, privParentScope] 7 true).Ignore = false ∧
    ((getTopDSA [taskScope, privParentScope] 7 true).CKind = OSSC_private ∨
      (getTopDSA [taskScope, privParentScope] 7 true).CKind =
        OSSC_firstprivate) ∧
    DSAAttrChecker.VisitDeclRefExpr
        { stack := [taskScope, privParentScope], ImplicitShared := [],
          ImplicitFirstprivate := [], InnerDecls := [],
          ErrorFound := false, Diags := [] } ⟨7, 42, true⟩ =
      some { stack := [taskScope, privParentScope], ImplicitShared := [],
             ImplicitFirstprivate := [] ++ [⟨7, 42, true⟩],
             InnerDecls := [], ErrorFound := false, Diags := [] } :=
  ⟨by decide, by decide, by decide, by decide, by decide, by decide,
    c1_inheritance.1 taskScope [privParentScope] [] [] [] false []
      ⟨7, 42, true⟩ (by decide) (by decide) (by decide) (by decide)
      (by decide) (by decide)⟩

/-- C7 counterexample: two references to the same variable 7, which
inherits firstprivate from the parent construct, are both appended to
the implicit-firstprivate list, so the variable appears twice in the
list used to build the implicit clause. -/
theorem c7_counterexample :
    ((DSAAttrChecker.VisitDeclRefExpr
          { stack := [taskScope, fpParentScope] } ⟨7, 1, true⟩).bind
        (fun s1 => DSAAttrChecker.VisitDeclRefExpr s1 ⟨7, 2, true⟩)).map
      (fun s => s.ImplicitFirstprivate) =
      some [⟨7, 1, true⟩, ⟨7, 2, true⟩] := by
  decide

/-- C7 (amended): re-classification is idempotent only for variables
the default policy classifies: when the parent lookup yields no usable
entry, the first visit records the variable in the current scope with a
non-null reference expression, and any later visit of the same variable
in the construct returns the state unchanged (no duplicate map entry,
no duplicate list entry).  A variable inheriting private or
firstprivate from a parent is instead re-appended on every visit, as
the counterexample shows. -/
theorem c7_idempotent (cur : SharingMapTy) (rest : DSAStack)
    (sh fp : List VarRef) (inner : List Nat) (err : Bool) (dg : List Nat)
    (e e2 : VarRef)
    (hdir : cur.Directive = OSSD_task)
    (hcur : mapFind cur.SharingMap e.Var = none)
    (hinner : e.Var ∉ inner)
    (hv : e2.Var = e.Var)
    (hpar : (getTopDSA (cur :: rest) e.Var true).RefExpr = none ∨
            (getTopDSA (cur :: rest) e.Var true).Ignore = true) :
    ∃ st1, DSAAttrChecker.VisitDeclRefExpr
        { stack := cur :: rest, ImplicitShared := sh,
          ImplicitFirstprivate := fp, InnerDecls := inner,
          ErrorFound := err, Diags := dg } e = some st1 ∧
      DSAAttrChecker.VisitDeclRefExpr st1 e2 = some st1 := by
  have hstep : ∃ (a : OmpSsClauseKind) (sh2 fp2 : List VarRef)
      (dg2 : List Nat),
      DSAAttrChecker.VisitDeclRefExpr
          { stack := cur :: rest, ImplicitShared := sh,
            ImplicitFirstprivate := fp, InnerDecls := inner,
            ErrorFound := err, Diags := dg } e =
        some { stack := addDSA (cur :: rest) e.Var (some e.Id) a true true,
               ImplicitShared := sh2, ImplicitFirstprivate := fp2,
               InnerDecls := inner, ErrorFound := err, Diags := dg2 } := by
    cases hda : cur.DefaultAttr with
    | DSA_unspecified =>
        cases hl : e.LocalStorage with
        | true =>
            refine ⟨OSSC_firstprivate, sh, fp ++ [e], dg, ?_⟩
            rcases hpar with hp | hp <;>
              simp [DSAAttrChecker.VisitDeclRefExpr, hinner, getCurrentDSA,
                hdir, getDSA, hcur, hp, hda, hl, getCurrentDirective,
                getCurrentDefaultDataSharingAttributtes,
                isOmpSsTaskingDirective]
        | false =>
            refine ⟨OSSC_shared, sh ++ [e], fp, dg, ?_⟩
            rcases hpar with hp | hp <;>
              simp [DSAAttrChecker.VisitDeclRefExpr, hinner, getCurrentDSA,
                hdir, getDSA, hcur, hp, hda, hl, getCurrentDirective,
                getCurrentDefaultDataSharingAttributtes,
                isOmpSsTaskingDirective]
    | DSA_none =>
        refine ⟨OSSC_unknown, sh, fp, dg ++ [e.Var], ?_⟩
        rcases hpar with hp | hp <;>
          simp [DSAAttrChecker.VisitDeclRefExpr, hinner, getCurrentDSA,
            hdir, getDSA, hcur, hp, hda, getCurrentDirective,
            getCurrentDefaultDataSharingAttributtes,
            isOmpSsTaskingDirective]
    | DSA_shared =>
        refine ⟨OSSC_shared, sh ++ [e], fp, dg, ?_⟩
        rcases hpar with hp | hp <;>
          simp [DSAAttrChecker.VisitDeclRefExpr, hinner, getCurrentDSA,
            hdir, getDSA, hcur, hp, hda, getCurrentDirective,
            getCurrentDefaultDataSharingAttributtes,
            isOmpSsTaskingDirective]
  obtain ⟨a, sh2, fp2, dg2, h1⟩ := hstep
  refine ⟨_, h1, visitDeclRefExpr_existing _ e2 ?_ ?_⟩
  · rw [hv]
    exact hinner
  · rw [hv]
    rw [getCurrentDSA_addDSA_self cur rest e.Var (some e.Id) a true true
      OSSC_unknown hdir]
    rfl

/-- C7 witness: the idempotence theorem applied to a task scope with an
unspecified default and no enclosing entry for variable 7. -/
theorem c7_witness :
    taskScope.Directive = OSSD_task ∧
    mapFind taskScope.SharingMap 7 = none ∧
    (7 : Nat) ∉ ([] : List Nat) ∧
    ((getTopDSA [taskScope] 7 true).RefExpr = none ∨
      (getTopDSA [taskScope] 7 true).Ignore = true) ∧
    (∃ st1, DSAAttrChecker.VisitDeclRefExpr
        { stack := [taskScope], ImplicitShared := [],
          ImplicitFirstprivate := [], InnerDecls := [],
          ErrorFound := false, Diags := [] } ⟨7, 1, true⟩ = some st1 ∧
      DSAAttrChecker.VisitDeclRefExpr st1 ⟨7, 2, true⟩ = some st1) :=
  ⟨by decide, by decide, by decide, by decide,
    c7_idempotent taskScope [] [] [] [] false [] ⟨7, 1, true⟩ ⟨7, 2, true⟩
      (by decide) (by decide) (by decide) (by decide) (by decide)⟩

end OmpSs

namespace OmpSs

open OmpSsClauseKind OmpSsDirectiveKind
open DSAStackTy OSSClauseDSAChecker

/-- C4 counterexample: variable 5 has an explicit shared DSA in the
construct (from a shared clause) and then appears in a depend clause
and in a reduction clause; the per-clause walk reports no
depend/reduction conflict in either clause order, because the shared
case of the classification neither checks nor records the restricting
clause kind. -/
theorem c4_counterexample :
    ((OSSClauseDSAChecker.runClauses { stack := [sharedCurScope] }
          [⟨OSSC_depend, [⟨5, 60, false, false, false⟩]⟩,
           ⟨OSSC_reduction, [⟨5, 61, false, false, false⟩]⟩]).map
        (fun s => (s.ErrorFound, s.ConflictDiags)) = some (false, [])) ∧
    ((OSSClauseDSAChecker.runClauses { stack := [sharedCurScope] }
          [⟨OSSC_reduction, [⟨5, 61, false, false, false⟩]⟩,
           ⟨OSSC_depend, [⟨5, 60, false, false, false⟩]⟩]).map
        (fun s => (s.ErrorFound, s.ConflictDiags)) = some (false, [])) := by
  refine ⟨by decide, by decide⟩

/-- C4 (amended): for a variable with no DSA entry in the construct
before the clause walk, an occurrence in a depend clause and an
occurrence in a reduction clause produce the depend/reduction conflict
error in either clause order; with a pre-existing explicit DSA entry
(for example from a shared clause) the conflict is not reported, as the
counterexample shows. -/
theorem c4_depend_reduction_conflict (cur : SharingMapTy) (rest : DSAStack)
    (e1 e2 : ClauseVarRef)
    (hdir : cur.Directive = OSSD_task)
    (hcur : mapFind cur.SharingMap e1.Var = none)
    (hv : e2.Var = e1.Var) :
    ((OSSClauseDSAChecker.runClauses { stack := cur :: rest }
          [⟨OSSC_depend, [e1]⟩, ⟨OSSC_reduction, [e2]⟩]).map
        (fun s => (s.ErrorFound, s.ConflictDiags)) = some (true, [e2.Var])) ∧
    ((OSSClauseDSAChecker.runClauses { stack := cur :: rest }
          [⟨OSSC_reduction, [e1]⟩, ⟨OSSC_depend, [e2]⟩]).map
        (fun s => (s.ErrorFound, s.ConflictDiags)) = some (true, [e2.Var])) := by
  have hv1 : (if e1.SubscriptCnt then OSSC_firstprivate
      else if e1.PointerTy ∧ e1.DerefMemberArrayBase then OSSC_firstprivate
      else OSSC_shared) = OSSC_firstprivate ∨
      (if e1.SubscriptCnt then OSSC_firstprivate
      else if e1.PointerTy ∧ e1.DerefMemberArrayBase then OSSC_firstprivate
      else OSSC_shared) = OSSC_shared := by
    split_ifs <;> simp
  have hv2 : (if e2.SubscriptCnt then OSSC_firstprivate
      else if e2.PointerTy ∧ e2.DerefMemberArrayBase then OSSC_firstprivate
      else OSSC_shared) = OSSC_firstprivate ∨
      (if e2.SubscriptCnt then OSSC_firstprivate
      else if e2.PointerTy ∧ e2.DerefMemberArrayBase then OSSC_firstprivate
      else OSSC_shared) = OSSC_shared := by
    split_ifs <;> simp
  constructor <;>
    rcases hv1 with h1 | h1 <;> rcases hv2 with h2 | h2 <;>
      simp [OSSClauseDSAChecker.runClauses, OSSClauseDSAChecker.VisitClause,
        OSSClauseDSAChecker.VisitDeclRefExpr,
        OSSClauseDSAChecker.eraseFirstById, List.foldlM,
        getCurrentDSA, hdir, getDSA, hcur, hv, h1, h2, addDSA,
        mapFind_mapUpdate_self]

/-- C4 witness: the conflict theorem applied to variable 9 with no
prior DSA entry, mentioned in a depend clause and a reduction
clause. -/
theorem c4_witness :
    taskScope.Directive = OSSD_task ∧
    mapFind taskScope.SharingMap 9 = none ∧
    (⟨9, 61, false, false, false⟩ : ClauseVarRef).Var =
      (⟨9, 60, false, false, false⟩ : ClauseVarRef).Var ∧
    (((OSSClauseDSAChecker.runClauses { stack := [taskScope] }
          [⟨OSSC_depend, [⟨9, 60, false, false, false⟩]⟩,
           ⟨OSSC_reduction, [⟨9, 61, false, false, false⟩]⟩]).map
        (fun s => (s.ErrorFound, s.ConflictDiags)) = some (true, [9])) ∧
     ((OSSClauseDSAChecker.runClauses { stack := [taskScope] }
          [⟨OSSC_reduction, [⟨9, 61, false, false, false⟩]⟩,
           ⟨OSSC_depend, [⟨9, 60, false, false, false⟩]⟩]).map
        (fun s => (s.ErrorFound, s.ConflictDiags)) = some (true, [9]))) :=
  ⟨by decide, by decide, by decide,
    c4_depend_reduction_conflict taskScope []
      ⟨9, 60, false, false, false⟩ ⟨9, 61, false, false, false⟩
      (by decide) (by decide) (by decide)⟩

end OmpSs

namespace OmpSs

open OmpSsRegionAnalysisPass

/-- C3 counterexample: an exit marker encountered with no pending entry
marker aborts the scan even when the disable-checks option is set: this
failure class is not downgradeable by the configuration option, contrary
to the claim. -/
theorem c3_counterexample :
    OmpSsRegionAnalysisPass.getOmpSsFunctionInfo true [ScanInst.exit] =
      none := by
  decide

/-- C3 (amended): in the region-analysis scan, an exit marker with no
pending entry on the task stack is a fatal abort regardless of the
disable-checks option, while an instruction operand defined before the
task entry and missing from the task's DSA bundles is fatal exactly
when checks are enabled: with disable-checks the scan completes. -/
theorem c3_scan_failure_modes :
    (∀ disableChecks : Bool,
      OmpSsRegionAnalysisPass.getOmpSsFunctionInfo disableChecks
        [ScanInst.exit] = none) ∧
    (∀ dsa : TaskDSAInfo,
      valueInDSABundles dsa (LValue.instr 0) = false →
      (OmpSsRegionAnalysisPass.getOmpSsFunctionInfo false
          [ScanInst.plain [] [], ScanInst.entry dsa 3,
           ScanInst.plain [ScanOperand.use (LValue.instr 0)] [],
           ScanInst.exit] = none ∧
        (OmpSsRegionAnalysisPass.getOmpSsFunctionInfo true
            [ScanInst.plain [] [], ScanInst.entry dsa 3,
             ScanInst.plain [ScanOperand.use (LValue.instr 0)] [],
             ScanInst.exit]).isSome = true)) := by
  constructor
  · decide
  · intro dsa h
    constructor <;>
      simp [OmpSsRegionAnalysisPass.getOmpSsFunctionInfo, List.enum,
        List.enumFrom, List.foldlM, scanStep, scanOperands, scanUsers, h]

/-- C3 witness: the failure-mode theorem applied to a task whose entry
marker carries empty DSA bundles, so the operand at position 0 is
missing from them. -/
theorem c3_witness :
    valueInDSABundles {} (LValue.instr 0) = false ∧
    (OmpSsRegionAnalysisPass.getOmpSsFunctionInfo false
        [ScanInst.plain [] [], ScanInst.entry {} 3,
         ScanInst.plain [ScanOperand.use (LValue.instr 0)] [],
         ScanInst.exit] = none ∧
      (OmpSsRegionAnalysisPass.getOmpSsFunctionInfo true
          [ScanInst.plain [] [], ScanInst.entry {} 3,
           ScanInst.plain [ScanOperand.use (LValue.instr 0)] [],
           ScanInst.exit]).isSome = true) :=
  ⟨by decide, c3_scan_failure_modes.2 {} (by decide)⟩

end OmpSs

namespace OmpSs

namespace OmpSsTransform

theorem idxMapFind_zip_range'_none (l : List TValue) (v : TValue) :
    ∀ s : Nat, v ∉ l →
      idxMapFind (l.zip (List.range' s l.length)) v = none := by
  induction l with
  | nil => intro s _; rfl
  | cons a t ih =>
      intro s h
      have hav : ¬(a = v) := fun hc => h (hc ▸ List.mem_cons_self a t)
      have ht : v ∉ t := fun hc => h (List.mem_cons_of_mem a hc)
      simp [List.range', idxMapFind, hav]
      simpa [List.zip] using ih (s + 1) ht

theorem idxMapUpdate_of_find_none (m : List (TValue × Nat)) (v : TValue)
    (i : Nat) (h : idxMapFind m v = none) :
    idxMapUpdate m v i = m ++ [(v, i)] := by
  induction m with
  | nil => rfl
  | cons a t ih =>
      obtain ⟨k2, v2⟩ := a
      by_cases hk : k2 = v
      · simp [idxMapFind, hk] at h
      · simp [idxMapFind, hk] at h
        simp [idxMapUpdate, hk, ih h]

theorem idxMapFind_append_of_none (m1 m2 : List (TValue × Nat)) (v : TValue)
    (h : idxMapFind m1 v = none) :
    idxMapFind (m1 ++ m2) v = idxMapFind m2 v := by
  induction m1 with
  | nil => rfl
  | cons a t ih =>
      obtain ⟨k2, v2⟩ := a
      by_cases hk : k2 = v
      · simp [idxMapFind, hk] at h
      · simp [idxMapFind, hk] at h ⊢
        exact ih h

theorem argsPhase_fst (memberTy : TValue → LLVMType) (vs : List TValue) :
    ∀ acc : List LLVMType × List (TValue × Nat) × Nat,
      (argsPhase memberTy vs acc).1 = acc.1 ++ vs.map memberTy := by
  induction vs with
  | nil => intro acc; simp [argsPhase]
  | cons a t ih =>
      intro ⟨tys, m, idx⟩
      simp [argsPhase, ih]

theorem argsPhase_idx (memberTy : TValue → LLVMType) (vs : List TValue) :
    ∀ acc : List LLVMType × List (TValue × Nat) × Nat,
      (argsPhase memberTy vs acc).2.2 = acc.2.2 + vs.length := by
  induction vs with
  | nil => intro acc; simp [argsPhase]
  | cons a t ih =>
      intro ⟨tys, m, idx⟩
      simp [argsPhase, ih]
      omega

theorem argsPhase_map (memberTy : TValue → LLVMType) (vs : List TValue) :
    ∀ acc : List LLVMType × List (TValue × Nat) × Nat,
      (∀ v ∈ vs, idxMapFind acc.2.1 v = none) → vs.Nodup →
      (argsPhase memberTy vs acc).2.1 =
        acc.2.1 ++ vs.zip (List.range' acc.2.2 vs.length) := by
  induction vs with
  | nil => intro acc _ _; simp [argsPhase]
  | cons a t ih =>
      intro ⟨tys, m, idx⟩ h hnd
      have ha : idxMapFind m a = none := h a (List.mem_cons_self a t)
      have hant : a ∉ t := (List.nodup_cons.mp hnd).1
      have hndt : t.Nodup := (List.nodup_cons.mp hnd).2
      have ht : ∀ v ∈ t, idxMapFind (m ++ [(a, idx)]) v = none := by
        intro v hvmem
        have hva : ¬(a = v) := fun hc => hant (hc ▸ hvmem)
        rw [idxMapFind_append_of_none m [(a, idx)] v (h v (List.mem_cons_of_mem a hvmem))]
        simp [idxMapFind, hva]
      simp only [argsPhase]
      rw [idxMapUpdate_of_find_none m a idx ha]
      rw [ih (tys ++ [memberTy a], m ++ [(a, idx)], idx + 1) ht hndt]
      simp [List.range']

end OmpSsTransform

end OmpSs

namespace OmpSs

namespace OmpSsTransform

theorem zip_range'_append (A B : List TValue) (s : Nat) :
    A.zip (List.range' s A.length) ++
        B.zip (List.range' (s + A.length) B.length) =
      (A ++ B).zip (List.range' s (A.length + B.length)) := by
  have hr : List.range' s A.length ++ List.range' (s + A.length) B.length =
      List.range' s (A.length + B.length) := by
    have h := List.range'_append s A.length B.length 1
    rw [Nat.one_mul] at h
    rw [Nat.add_comm B.length A.length] at h
    exact h
  rw [← hr, List.zip_append (by simp)]

theorem argsPhase_chain (f1 f2 f3 f4 : TValue → LLVMType)
    (l1 l2 l3 l4 : List TValue)
    (hnd : (l1 ++ l2 ++ l3 ++ l4).Nodup) :
    (argsPhase f4 l4 (argsPhase f3 l3 (argsPhase f2 l2
        (argsPhase f1 l1 ([], [], 0))))).2.1 =
      (l1 ++ l2 ++ l3 ++ l4).zip
        (List.range (l1 ++ l2 ++ l3 ++ l4).length) := by
  obtain ⟨hA, hnd4, hdisj4⟩ := List.nodup_append.mp hnd
  obtain ⟨hB, hnd3, hdisj3⟩ := List.nodup_append.mp hA
  obtain ⟨hnd1, hnd2, hdisj2⟩ := List.nodup_append.mp hB
  have hi1 := argsPhase_idx f1 l1 ([], [], 0)
  simp only [Nat.zero_add] at hi1
  have hm1 := argsPhase_map f1 l1 ([], [], 0) (fun v _ => rfl) hnd1
  simp only [List.nil_append] at hm1
  have hc2 : ∀ v ∈ l2, idxMapFind
      (argsPhase f1 l1 ([], [], 0)).2.1 v = none := by
    intro v hv
    rw [hm1]
    exact idxMapFind_zip_range'_none l1 v 0 (fun hv1 => hdisj2 hv1 hv)
  have hm2 := argsPhase_map f2 l2 (argsPhase f1 l1 ([], [], 0)) hc2 hnd2
  rw [hm1, hi1] at hm2
  have hz2 := zip_range'_append l1 l2 0
  simp only [Nat.zero_add] at hz2
  rw [hz2] at hm2
  have hi2 := argsPhase_idx f2 l2 (argsPhase f1 l1 ([], [], 0))
  rw [hi1] at hi2
  rw [show l1.length + l2.length = (l1 ++ l2).length from
    (List.length_append l1 l2).symm] at hm2 hi2
  have hc3 : ∀ v ∈ l3, idxMapFind
      (argsPhase f2 l2 (argsPhase f1 l1 ([], [], 0))).2.1 v = none := by
    intro v hv
    rw [hm2]
    exact idxMapFind_zip_range'_none (l1 ++ l2) v 0
      (fun hv1 => hdisj3 hv1 hv)
  have hm3 := argsPhase_map f3 l3
    (argsPhase f2 l2 (argsPhase f1 l1 ([], [], 0))) hc3 hnd3
  rw [hm2, hi2] at hm3
  have hz3 := zip_range'_append (l1 ++ l2) l3 0
  simp only [Nat.zero_add] at hz3
  rw [hz3] at hm3
  have hi3 := argsPhase_idx f3 l3
    (argsPhase f2 l2 (argsPhase f1 l1 ([], [], 0)))
  rw [hi2] at hi3
  rw [show (l1 ++ l2).length + l3.length = (l1 ++ l2 ++ l3).length from
    (List.length_append (l1 ++ l2) l3).symm] at hm3 hi3
  have hc4 : ∀ v ∈ l4, idxMapFind
      (argsPhase f3 l3 (argsPhase f2 l2 (argsPhase f1 l1 ([], [], 0)))).2.1
        v = none := by
    intro v hv
    rw [hm3]
    exact idxMapFind_zip_range'_none (l1 ++ l2 ++ l3) v 0
      (fun hv1 => hdisj4 hv1 hv)
  have hm4 := argsPhase_map f4 l4
    (argsPhase f3 l3 (argsPhase f2 l2 (argsPhase f1 l1 ([], [], 0)))) hc4 hnd4
  rw [hm3, hi3] at hm4
  have hz4 := zip_range'_append (l1 ++ l2 ++ l3) l4 0
  simp only [Nat.zero_add] at hz4
  rw [hz4] at hm4
  rw [show (l1 ++ l2 ++ l3).length + l4.length =
      (l1 ++ l2 ++ l3 ++ l4).length from
    (List.length_append (l1 ++ l2 ++ l3) l4).symm] at hm4
  rw [hm4, List.range_eq_range']

end OmpSsTransform

end OmpSs

namespace OmpSs

open OmpSsTransform

/-- C8: createTaskArgsType lays the argument-block struct out with all
shared symbols first, then private, then firstprivate, then the
captured auxiliary values; the member count is the sum of the four set
sizes, and (for distinct symbols, as the SetVector-backed DSA sets
guarantee) the symbol-to-index map assigns consecutive indices 0, 1,
2, ... in that same iteration order. -/
theorem c8_task_args_layout (dsa : TaskDSA) (cap vla : List TValue) :
    (OmpSsTransform.createTaskArgsType dsa cap vla).1.length =
      dsa.Shared.length + dsa.Private.length + dsa.Firstprivate.length +
        cap.length ∧
    ((dsa.Shared ++ dsa.Private ++ dsa.Firstprivate ++ cap).Nodup →
      (OmpSsTransform.createTaskArgsType dsa cap vla).2 =
        (dsa.Shared ++ dsa.Private ++ dsa.Firstprivate ++ cap).zip
          (List.range
            (dsa.Shared ++ dsa.Private ++ dsa.Firstprivate ++
              cap).length)) := by
  constructor
  · simp [OmpSsTransform.createTaskArgsType, argsPhase_fst]
    omega
  · intro hnd
    simp only [OmpSsTransform.createTaskArgsType]
    exact argsPhase_chain _ _ _ _ dsa.Shared dsa.Private dsa.Firstprivate
      cap hnd

/-- C8 witness: the layout theorem applied to a task with one shared,
one private, one firstprivate and one captured value, all distinct. -/
theorem c8_witness :
    ((TValue.mk 1 (LLVMType.ptr (LLVMType.intTy 32)) ::
        TValue.mk 2 (LLVMType.ptr (LLVMType.intTy 32)) ::
        TValue.mk 3 (LLVMType.ptr (LLVMType.intTy 64)) ::
        [TValue.mk 4 (LLVMType.intTy 64)]).Nodup) ∧
    (OmpSsTransform.createTaskArgsType
        { Shared := [TValue.mk 1 (LLVMType.ptr (LLVMType.intTy 32))],
          Private := [TValue.mk 2 (LLVMType.ptr (LLVMType.intTy 32))],
          Firstprivate := [TValue.mk 3 (LLVMType.ptr (LLVMType.intTy 64))] }
        [TValue.mk 4 (LLVMType.intTy 64)] []).1.length = 1 + 1 + 1 + 1 ∧
    (OmpSsTransform.createTaskArgsType
        { Shared := [TValue.mk 1 (LLVMType.ptr (LLVMType.intTy 32))],
          Private := [TValue.mk 2 (LLVMType.ptr (LLVMType.intTy 32))],
          Firstprivate := [TValue.mk 3 (LLVMType.ptr (LLVMType.intTy 64))] }
        [TValue.mk 4 (LLVMType.intTy 64)] []).2 =
      ([TValue.mk 1 (LLVMType.ptr (LLVMType.intTy 32))] ++
        [TValue.mk 2 (LLVMType.ptr (LLVMType.intTy 32))] ++
        [TValue.mk 3 (LLVMType.ptr (LLVMType.intTy 64))] ++
        [TValue.mk 4 (LLVMType.intTy 64)]).zip
        (List.range
          ([TValue.mk 1 (LLVMType.ptr (LLVMType.intTy 32))] ++
            [TValue.mk 2 (LLVMType.ptr (LLVMType.intTy 32))] ++
            [TValue.mk 3 (LLVMType.ptr (LLVMType.intTy 64))] ++
            [TValue.mk 4 (LLVMType.intTy 64)]).length) :=
  ⟨by decide,
    (c8_task_args_layout
      { Shared := [TValue.mk 1 (LLVMType.ptr (LLVMType.intTy 32))],
        Private := [TValue.mk 2 (LLVMType.ptr (LLVMType.intTy 32))],
        Firstprivate := [TValue.mk 3 (LLVMType.ptr (LLVMType.intTy 64))] }
      [TValue.mk 4 (LLVMType.intTy 64)] []).1,
    (c8_task_args_layout
      { Shared := [TValue.mk 1 (LLVMType.ptr (LLVMType.intTy 32))],
        Private := [TValue.mk 2 (LLVMType.ptr (LLVMType.intTy 32))],
        Firstprivate := [TValue.mk 3 (LLVMType.ptr (LLVMType.intTy 64))] }
      [TValue.mk 4 (LLVMType.intTy 64)] []).2 (by decide)⟩

end OmpSs
